import Mathlib

/-!
Verification development for myio-mcp.

A shallow embedding in Lean 4 of the decode / encode core of the
`myio-mcp` adapter (`src/api.ts` — the client module imported by the MCP
entry point `src/index.ts` — together with the tool-dispatch handler of
`src/index.ts`), and proofs of the behavioural properties stated in the
repository's specification.

Modelling conventions:
* JavaScript numbers are modelled as `ℚ` where fractional values flow
  through the code (sensor values, percent inputs) and as `ℤ` where the
  API declares integers (ids, raw snapshot fields).
* `Record<string, T>` objects are modelled as association lists in
  property-creation order; `Object.entries` / `Object.values` are
  modelled by `jsEntries` / `jsValues`, which reproduce the ECMAScript
  own-property ordering (array-index keys first, in ascending numeric
  order, then the remaining keys in insertion order).
* `async` methods whose only effect is one HTTP exchange are modelled as
  pure functions of the fetched document; a fallible exchange is an
  explicit `Except String` argument carrying the thrown error's message.
-/

namespace MyIO

/-! ## JavaScript primitives used by the source -/

/-- JS `Math.round` on a finite number: round half toward positive infinity. -/
def jsRound (q : ℚ) : ℤ := ⌊q + 1/2⌋

/-- The percent normalization of `pcaSet` / `pwmSet`:
`Math.max(0, Math.min(100, Math.round(percent)))`. -/
def clampRound (p : ℚ) : ℤ := max 0 (min 100 (jsRound p))

/-- Decimal digit character for `d < 10`. -/
def digitChar (d : ℕ) : Char := Char.ofNat ('0'.toNat + d)

/-- Decimal digit accumulation, structurally recursive on a fuel bound
(any fuel above the digit count gives the same digits). -/
def natDigitsAux : ℕ → ℕ → List Char
  | 0, _ => []
  | f + 1, n =>
    if n < 10 then [digitChar n]
    else natDigitsAux f (n / 10) ++ [digitChar (n % 10)]

/-- Decimal digit list of a natural number, most significant first. -/
def natDigits (n : ℕ) : List Char := natDigitsAux (n + 1) n

/-- Decimal rendering of a natural number (JS `ToString` on an integer). -/
def natRepr (n : ℕ) : String := ⟨natDigits n⟩

/-- Decimal rendering of an integer (JS `ToString` on an integral number). -/
def intRepr (i : ℤ) : String :=
  if i < 0 then "-" ++ natRepr i.natAbs else natRepr i.natAbs

/-- JS `String(x)` for the numbers this adapter interpolates into
messages: exact decimal rendering. Integers render as plain decimals;
a non-integer renders via the least power of ten clearing its
denominator (the form JS picks for every decimal-exact double in the
non-exponential range; exponential-notation thresholds are outside the
values this adapter handles). A rational with no such power of ten has
no finite decimal form and is rendered as a fraction. -/
def qRepr (q : ℚ) : String :=
  if q.den = 1 then intRepr q.num
  else match (List.range 400).find? (fun k => ((10:ℚ)^k * q).den = 1) with
    | some k =>
        let m : ℤ := ((10:ℚ)^k * q).num
        (if q < 0 then "-" else "") ++
          natRepr (m.natAbs / 10^k) ++ "." ++
          ⟨(natDigits (10^k + m.natAbs % 10^k)).drop 1⟩
    | none => intRepr q.num ++ "/" ++ natRepr q.den

/-! ## Percent-encoding (`encodeURIComponent` / `decodeURIComponent`) -/

/-- Characters `encodeURIComponent` leaves unescaped:
alphanumerics and `- _ . ! ~ * ' ( )`. -/
def isUnreservedURI (c : Char) : Bool :=
  c.isAlphanum || c = '-' || c = '_' || c = '.' || c = '!' ||
    c = '~' || c = '*' || c = '\'' || c = '(' || c = ')'

/-- UTF-8 bytes of a Unicode scalar value. -/
def utf8Bytes (c : Char) : List ℕ :=
  let n := c.toNat
  if n < 0x80 then [n]
  else if n < 0x800 then [0xC0 + n / 0x40, 0x80 + n % 0x40]
  else if n < 0x10000 then
    [0xE0 + n / 0x1000, 0x80 + n / 0x40 % 0x40, 0x80 + n % 0x40]
  else
    [0xF0 + n / 0x40000, 0x80 + n / 0x1000 % 0x40,
      0x80 + n / 0x40 % 0x40, 0x80 + n % 0x40]

/-- Uppercase hexadecimal digit for `d < 16`. -/
def hexChar (d : ℕ) : Char :=
  if d < 10 then Char.ofNat ('0'.toNat + d) else Char.ofNat ('A'.toNat + (d - 10))

/-- The `%XX` escape of one byte (uppercase, as produced by JS). -/
def pctByte (b : ℕ) : List Char := ['%', hexChar (b / 16), hexChar (b % 16)]

/-- Model of `encodeURIComponent`: unreserved characters pass through, every other
character is replaced by the `%XX` escapes of its UTF-8 bytes. -/
def encodeURIComponent (s : String) : String :=
  ⟨(s.data.map fun c =>
      if isUnreservedURI c then [c] else (utf8Bytes c).map pctByte |>.flatten).flatten⟩

/-- Value of one hexadecimal digit character (either case), as accepted
by `decodeURIComponent`; code points 48–57 are `0`–`9`, 65–70 are
`A`–`F`, 97–102 are `a`–`f`. -/
def hexVal (c : Char) : Option ℕ :=
  let n := c.toNat
  if 48 ≤ n ∧ n ≤ 57 then some (n - 48)
  else if 65 ≤ n ∧ n ≤ 70 then some (n - 55)
  else if 97 ≤ n ∧ n ≤ 102 then some (n - 87)
  else none

/-- First pass of `decodeURIComponent`: turn the character stream into a
byte stream, reading each `%XX` escape as one byte and expanding every
other character to its UTF-8 bytes. `none` models the `URIError` thrown
on a `%` not followed by two hexadecimal digits. -/
def pctToBytes : List Char → Option (List ℕ)
  | [] => some []
  | '%' :: h₁ :: h₂ :: rest => do
      let d₁ ← hexVal h₁
      let d₂ ← hexVal h₂
      let bs ← pctToBytes rest
      pure ((d₁ * 16 + d₂) :: bs)
  | '%' :: _ :: [] => none
  | '%' :: [] => none
  | c :: rest => (utf8Bytes c ++ ·) <$> pctToBytes rest

/-- Strict UTF-8 decoder: rejects truncated sequences, stray continuation
bytes, overlong encodings, surrogate code points and values above
`0x10FFFF`, exactly as `decodeURIComponent` does. -/
def utf8Decode : List ℕ → Option (List Char)
  | [] => some []
  | b :: rest =>
    if b < 0x80 then (Char.ofNat b :: ·) <$> utf8Decode rest
    else if b < 0xC0 then none
    else if b < 0xE0 then
      match rest with
      | c₁ :: rest' =>
        if 0x80 ≤ c₁ ∧ c₁ < 0xC0 then
          let n := (b - 0xC0) * 0x40 + (c₁ - 0x80)
          if 0x80 ≤ n then (Char.ofNat n :: ·) <$> utf8Decode rest' else none
        else none
      | _ => none
    else if b < 0xF0 then
      match rest with
      | c₁ :: c₂ :: rest' =>
        if (0x80 ≤ c₁ ∧ c₁ < 0xC0) ∧ (0x80 ≤ c₂ ∧ c₂ < 0xC0) then
          let n := (b - 0xE0) * 0x1000 + (c₁ - 0x80) * 0x40 + (c₂ - 0x80)
          if 0x800 ≤ n ∧ ¬(0xD800 ≤ n ∧ n < 0xE000) then
            (Char.ofNat n :: ·) <$> utf8Decode rest'
          else none
        else none
      | _ => none
    else if b < 0xF8 then
      match rest with
      | c₁ :: c₂ :: c₃ :: rest' =>
        if (0x80 ≤ c₁ ∧ c₁ < 0xC0) ∧ (0x80 ≤ c₂ ∧ c₂ < 0xC0) ∧
            (0x80 ≤ c₃ ∧ c₃ < 0xC0) then
          let n := (b - 0xF0) * 0x40000 + (c₁ - 0x80) * 0x1000 +
            (c₂ - 0x80) * 0x40 + (c₃ - 0x80)
          if 0x10000 ≤ n ∧ n < 0x110000 then
            (Char.ofNat n :: ·) <$> utf8Decode rest'
          else none
        else none
      | _ => none
    else none

/-- Model of `decodeURIComponent`; `none` models the thrown `URIError`. -/
def decodeURIComponent (s : String) : Option String := do
  let bs ← pctToBytes s.data
  let cs ← utf8Decode bs
  pure ⟨cs⟩

/-! ## ECMAScript own-property order and object iteration

A `Record<string, T>` is modelled as an association list in
property-creation order, with the later of two bindings of the same key
overwriting in place. `Object.entries` / `Object.values` enumerate
array-index keys first in ascending numeric order, then the remaining
keys in creation order. -/

/-- Numeric value of a canonical decimal string, `none` otherwise. -/
def canonicalNatOf (s : String) : Option ℕ :=
  match s.data with
  | [] => none
  | c :: cs =>
    if (c :: cs).all (·.isDigit) ∧ (c = '0' → cs = []) then
      some ((c :: cs).foldl (fun n d => 10 * n + (d.toNat - '0'.toNat)) 0)
    else none

/-- A string is an ECMAScript array index: the canonical decimal form of
an integer in `[0, 2^32 - 1)`. -/
def isArrayIndexKey (s : String) : Bool :=
  match canonicalNatOf s with
  | some n => n < 4294967295
  | none => false

/-- The array-index value of a key (0 for non-index keys, which are never
compared by it). -/
def arrayIndexVal (s : String) : ℕ := (canonicalNatOf s).getD 0

/-- Insert into a list sorted by ascending array-index value. -/
def insertByIndex {α : Type} (p : String × α) :
    List (String × α) → List (String × α)
  | [] => [p]
  | q :: rest =>
    if arrayIndexVal p.1 ≤ arrayIndexVal q.1 then p :: q :: rest
    else q :: insertByIndex p rest

/-- The `Object.entries` order: array-index keys ascending, then the rest in
creation order. -/
def jsEntries {α : Type} (m : List (String × α)) : List (String × α) :=
  (m.filter fun p => isArrayIndexKey p.1).foldr insertByIndex [] ++
    m.filter fun p => !isArrayIndexKey p.1

/-- The `Object.values` order. -/
def jsValues {α : Type} (m : List (String × α)) : List α :=
  (jsEntries m).map Prod.snd

/-- JS property write `m[k] = v`: overwrite in place, or append. -/
def objInsert {α : Type} (m : List (String × α)) (k : String) (v : α) :
    List (String × α) :=
  if m.any (·.1 = k) then m.map fun p => if p.1 = k then (k, v) else p
  else m ++ [(k, v)]

/-- JS `String.prototype.split` with a one-character separator
(`"".split(sep)` is `[""]`; adjacent separators yield empty segments). -/
def jsSplitAux (sep : Char) : List Char → List Char → List String
  | [], acc => [⟨acc.reverse⟩]
  | c :: cs, acc =>
    if c = sep then ⟨acc.reverse⟩ :: jsSplitAux sep cs []
    else jsSplitAux sep cs (c :: acc)

/-- JS `s.split(sep)` for a one-character separator string. -/
def jsSplit (sep : Char) (s : String) : List String := jsSplitAux sep s.data []

/-- JS `Array.prototype.join(sep)`. -/
def joinWith (sep : String) : List String → String
  | [] => ""
  | [x] => x
  | x :: y :: rest => x ++ sep ++ joinWith sep (y :: rest)

/-! ## Command encoder (`MyIOAPI.sendCommand` and the set-level helpers) -/

/-- A value of `Record<string, string | number>`; the numbers the adapter
puts in command maps are integers. -/
inductive CmdVal where
  | num (i : ℤ)
  | str (s : String)
deriving DecidableEq

/-- JS template-literal coercion of a command value to a string. -/
def CmdVal.render : CmdVal → String
  | .num i => intRepr i
  | .str s => s

/-- The POST body built by `sendCommand`:
`Object.entries(commands).map(([k, v]) => enc(k) + '=' + enc(v)).join('&')`. -/
def sendCommandBody (commands : List (String × CmdVal)) : String :=
  joinWith "&" ((jsEntries commands).map fun p =>
    encodeURIComponent p.1 ++ "=" ++ encodeURIComponent p.2.render)

/-- The one-pair command map built by `pcaSet(id, percent)`:
`{ ['PCA*' + id]: Math.max(0, Math.min(100, Math.round(percent))) }`. -/
def pcaSetCommands (id : ℤ) (percent : ℚ) : List (String × CmdVal) :=
  [("PCA*" ++ intRepr id, .num (clampRound percent))]

/-- The POST body sent by `pcaSet`. -/
def pcaSetBody (id : ℤ) (percent : ℚ) : String :=
  sendCommandBody (pcaSetCommands id percent)

/-- The one-pair command map built by `pwmSet(id, percent)`:
`{ ['fet*' + (id - 100)]: Math.max(0, Math.min(100, Math.round(percent))) }`. -/
def pwmSetCommands (id : ℤ) (percent : ℚ) : List (String × CmdVal) :=
  [("fet*" ++ intRepr (id - 100), .num (clampRound percent))]

/-- The POST body sent by `pwmSet`. -/
def pwmSetBody (id : ℤ) (percent : ℚ) : String :=
  sendCommandBody (pwmSetCommands id percent)

/-! ## Raw snapshot types (`sens_out.json` / `d_sens_out.json`) -/

/-- Raw relay record. `state` is 0 = OFF, 1 = ON. -/
structure RawRelay where
  id : ℤ
  description : Option String := none
  state : ℤ
  inverse : ℤ := 0
  alarm : ℤ := 0
  justOn : ℤ := 0
  timer : ℤ := 0
  timerActive : ℤ := 0
  timerRemain : ℤ := 0
  delay : ℤ := 0
  delayActive : ℤ := 0
  delayRemain : ℤ := 0
  sensor : ℤ := 0
  sensorON : ℤ := 0
  sensorOFF : ℤ := 0
deriving DecidableEq

/-- Raw PCA record (`RawPCA extends RawRelay`); `state` is 0–255. -/
structure RawPCA extends RawRelay where
  turnOFF : ℤ := 0
  turnON : ℤ := 0
  fade : ℤ := 0
  speed : ℤ := 0
  mixer : ℤ := 0
  pwm : ℤ := 0
deriving DecidableEq

/-- Raw PWM record; `state` is 0–255. -/
structure RawPWM where
  id : ℤ
  description : Option String := none
  state : ℤ
  turnOFF : ℤ := 0
  turnON : ℤ := 0
  fade : ℤ := 0
  speed : ℤ := 0
  sensor : ℤ := 0
  sensorON : ℤ := 0
  sensorOFF : ℤ := 0
deriving DecidableEq

/-- Raw group record; the open-ended `elementN` member fields of the
TypeScript index signature are carried as an auxiliary key bag that the
decoder never reads. -/
structure RawGroup where
  id : ℤ
  description : Option String := none
  pullUP : ℤ
  elements : List (String × ℤ) := []
deriving DecidableEq

/-- Raw joiner / protection record. -/
structure RawJoinerProtection where
  element0 : ℤ
  element0d : Option String := none
  element1 : ℤ
  element1d : Option String := none
deriving DecidableEq

/-- Raw sensor record: at most one of the six measurement fields is
expected, each an integer at 100× scale. -/
structure RawSensor where
  id : ℤ
  description : Option String := none
  temp : Option ℤ := none
  hum : Option ℤ := none
  imp : Option ℤ := none
  P : Option ℤ := none
  U : Option ℤ := none
  I : Option ℤ := none
deriving DecidableEq

/-- The snapshot document shape shared by `/sens_out.json` and
`/d_sens_out.json`: six device families plus the sensors family, each a
string-keyed object. -/
structure SensOutData where
  relays : List (String × RawRelay) := []
  PCA : List (String × RawPCA) := []
  PWM : List (String × RawPWM) := []
  group : List (String × RawGroup) := []
  joiner : List (String × RawJoinerProtection) := []
  protection : List (String × RawJoinerProtection) := []
  sensors : List (String × RawSensor) := []
deriving DecidableEq

/-! ## Decoded types -/

inductive DeviceType where
  | relay
  | pca
  | pwm
  | group
deriving DecidableEq

/-- Decoded device record. -/
structure DeviceInfo where
  id : ℤ
  description : String
  type : DeviceType
  state : Bool
  levelPercent : Option ℤ := none
deriving DecidableEq

inductive SensorType where
  | temperature
  | humidity
  | energy
  | power
  | voltage
  | current
deriving DecidableEq

/-- Decoded sensor reading. -/
structure SensorReading where
  id : ℤ
  description : String
  type : SensorType
  value : ℚ
  unit : String
  raw : ℤ
deriving DecidableEq

/-! ## Status decoder (`listDevices` / `readSensors`)

Each loop body of the TypeScript decoder becomes one record-level decode
function; the loops themselves become folds over the object's values in
`Object.values` order, appending one decoded record per push. -/

/-- Body of the relay loop of `listDevices`. -/
def decodeRelay (e : RawRelay) : DeviceInfo :=
  { id := e.id
    description := e.description.getD ("Relay " ++ intRepr e.id)
    type := .relay
    state := e.state == 1 }

/-- Body of the PCA loop of `listDevices`. -/
def decodePCA (e : RawPCA) : DeviceInfo :=
  { id := e.id
    description := e.description.getD ("PCA " ++ intRepr e.id)
    type := .pca
    state := e.state > 0
    levelPercent := some (jsRound ((e.state : ℚ) / 255 * 100)) }

/-- Body of the PWM loop of `listDevices`. -/
def decodePWM (e : RawPWM) : DeviceInfo :=
  { id := e.id
    description := e.description.getD ("PWM " ++ intRepr e.id)
    type := .pwm
    state := e.state > 0
    levelPercent := some (jsRound ((e.state : ℚ) / 255 * 100)) }

/-- Body of the group loop of `listDevices`; group state is not available
from the snapshot, the source pushes `state: false` unconditionally. -/
def decodeGroup (e : RawGroup) : DeviceInfo :=
  { id := e.id
    description := e.description.getD ("Group " ++ intRepr e.id)
    type := .group
    state := false }

/-- The method `MyIOAPI.listDevices`, as a pure function of the fetched full
snapshot: four push loops over the relay, PCA, PWM and group families. -/
def listDevices (data : SensOutData) : List DeviceInfo :=
  let devices : List DeviceInfo := []
  let devices := (jsValues data.relays).foldl (fun acc e => acc ++ [decodeRelay e]) devices
  let devices := (jsValues data.PCA).foldl (fun acc e => acc ++ [decodePCA e]) devices
  let devices := (jsValues data.PWM).foldl (fun acc e => acc ++ [decodePWM e]) devices
  let devices := (jsValues data.group).foldl (fun acc e => acc ++ [decodeGroup e]) devices
  devices

/-- Body of the sensor loop of `readSensors`: the if/else chain over the
six measurement fields, first match wins, no match pushes nothing.
(The source's `sensor.id ?? parseInt(key)` fallback never fires because
`id` is a required field of `RawSensor`.) -/
def decodeSensor (s : RawSensor) : Option SensorReading :=
  let desc := s.description.getD ("Sensor " ++ intRepr s.id)
  match s.temp with
  | some v => some ⟨s.id, desc, .temperature, (v : ℚ) / 100, "°C", v⟩
  | none =>
  match s.hum with
  | some v => some ⟨s.id, desc, .humidity, (v : ℚ) / 100, "%", v⟩
  | none =>
  match s.imp with
  | some v => some ⟨s.id, desc, .energy, (v : ℚ) / 100, "kWh", v⟩
  | none =>
  match s.P with
  | some v => some ⟨s.id, desc, .power, (v : ℚ) / 100, "kW", v⟩
  | none =>
  match s.U with
  | some v => some ⟨s.id, desc, .voltage, (v : ℚ) / 100, "V", v⟩
  | none =>
  match s.I with
  | some v => some ⟨s.id, desc, .current, (v : ℚ) / 100, "A", v⟩
  | none => none

/-- The method `MyIOAPI.readSensors`, as a pure function of the fetched snapshot:
one conditional-push loop over the sensors family. -/
def readSensors (data : SensOutData) : List SensorReading :=
  (jsValues data.sensors).foldl
    (fun acc s => acc ++ (decodeSensor s).toList) []

/-- The first measurement field present on a raw sensor record, in the
decode priority order `temp, hum, imp, P, U, I`; used to state which raw
integer a decoded reading carries. -/
def firstSensorField (s : RawSensor) : Option ℤ :=
  match s.temp with
  | some v => some v
  | none =>
  match s.hum with
  | some v => some v
  | none =>
  match s.imp with
  | some v => some v
  | none =>
  match s.P with
  | some v => some v
  | none =>
  match s.U with
  | some v => some v
  | none =>
  match s.I with
  | some v => some v
  | none => none

/-! ## The raw-command parser of the `myio_send_command` tool -/

/-- The parse loop of the `myio_send_command` case: for each `&`-segment,
destructure `part.split('=')` as `[k, v]` (so a value containing `=` is
truncated at the second `=`), keep the segment only when `k` is non-empty
and `v` is defined, percent-decode both, and write them into the object.
`none` models the `URIError` thrown by `decodeURIComponent`. -/
def parseRawAux : List String → List (String × String) →
    Option (List (String × String))
  | [], acc => some acc
  | part :: rest, acc =>
    match jsSplit '=' part with
    | k :: v :: _ =>
      if k = "" then parseRawAux rest acc
      else
        match decodeURIComponent k, decodeURIComponent v with
        | some dk, some dv => parseRawAux rest (objInsert acc dk dv)
        | _, _ => none
    | _ => parseRawAux rest acc

/-- The full raw-command parse of the `myio_send_command` tool. -/
def parseRawCommands (raw : String) : Option (List (String × String)) :=
  parseRawAux (jsSplit '&' raw) []

/-- The POST body ultimately sent by the `myio_send_command` tool: the
parsed pairs handed to `sendCommand`, which re-encodes them. -/
def rawCommandBody (raw : String) : Option String :=
  (parseRawCommands raw).map fun m =>
    sendCommandBody (m.map fun p => (p.1, CmdVal.str p.2))

/-! ## Message formatting of the tool handler (`src/index.ts`) -/

/-- JS `Number.prototype.toFixed(2)` for the exact decimal values this
adapter formats (decoded sensor values, always an integer over 100). -/
def qToFixed2 (q : ℚ) : String :=
  let m := (⌊|q| * 100 + 1/2⌋).toNat
  (if q < 0 then "-" else "") ++
    natRepr (m / 100) ++ "." ++ ⟨(natDigits (100 + m % 100)).drop 1⟩

/-- The `fmt` line of the `myio_list_devices` handler. -/
def fmtDevice (d : DeviceInfo) : String :=
  "  • [" ++ intRepr d.id ++ "] " ++ d.description ++ " — " ++
    (if d.state then "ON" else "OFF") ++
    (match d.levelPercent with
      | some l => " (" ++ intRepr l ++ "%)"
      | none => "")

/-- The section assembly of the `myio_list_devices` handler. -/
def formatDeviceList (devices : List DeviceInfo) : String :=
  let relays := devices.filter fun d => d.type == .relay
  let pcas := devices.filter fun d => d.type == .pca
  let pwms := devices.filter fun d => d.type == .pwm
  let groups := devices.filter fun d => d.type == .group
  let sections :=
    (if relays.isEmpty then [] else
      ["Relays (1–100):\n" ++ joinWith "\n" (relays.map fmtDevice)]) ++
    (if pcas.isEmpty then [] else
      ["PCA Outputs (2001–2128):\n" ++ joinWith "\n" (pcas.map fmtDevice)]) ++
    (if pwms.isEmpty then [] else
      ["PWM Outputs (101–113):\n" ++ joinWith "\n" (pwms.map fmtDevice)]) ++
    (if groups.isEmpty then [] else
      ["Groups (500–550):\n" ++ joinWith "\n" (groups.map fmtDevice)])
  "myIO Devices:\n\n" ++ joinWith "\n\n" sections

/-- One line of the `myio_read_sensors` handler. -/
def fmtSensor (s : SensorReading) : String :=
  "  • [" ++ intRepr s.id ++ "] " ++ s.description ++ ": " ++
    qToFixed2 s.value ++ " " ++ s.unit

/-- The text assembly of the `myio_read_sensors` handler. -/
def formatSensorList (sensors : List SensorReading) : String :=
  "myIO Sensors:\n\n" ++ joinWith "\n" (sensors.map fmtSensor)

/-! ### `JSON.stringify(data, null, 2)` for the `myio_get_status` tool

Field order inside each record follows the TypeScript interface
declaration (the runtime order is whatever the controller's JSON used,
which the type does not pin down). -/

/-- JSON string escaping as performed by `JSON.stringify`. -/
def jsonEscape (s : String) : String :=
  ⟨(s.data.map fun c =>
      if c = '"' then ['\\', '"']
      else if c = '\\' then ['\\', '\\']
      else if c = Char.ofNat 8 then ['\\', 'b']
      else if c = Char.ofNat 12 then ['\\', 'f']
      else if c = '\n' then ['\\', 'n']
      else if c = Char.ofNat 13 then ['\\', 'r']
      else if c = '\t' then ['\\', 't']
      else if c.toNat < 32 then
        ['\\', 'u', '0', '0', hexChar (c.toNat / 16), hexChar (c.toNat % 16)]
      else [c]).flatten⟩

/-- A JSON string literal. -/
def jsonStr (s : String) : String := "\"" ++ jsonEscape s ++ "\""

/-- A pretty-printed JSON object at enclosing indentation `ind`, from
already-rendered field values (two-space indent step, as produced by
`JSON.stringify(·, null, 2)`). -/
def objBlock (ind : String) (fields : List (String × String)) : String :=
  if fields.isEmpty then "\x7b\x7d"
  else
    "\x7b\n" ++
      joinWith ",\n" (fields.map fun p =>
        ind ++ "  " ++ jsonStr p.1 ++ ": " ++ p.2) ++
      "\n" ++ ind ++ "\x7d"

/-- An optional JSON field: omitted when the value is `undefined`. -/
def optField (name : String) : Option String → List (String × String)
  | some d => [(name, jsonStr d)]
  | none => []

/-- JSON fields of a raw relay record. -/
def relayJsonFields (e : RawRelay) : List (String × String) :=
  [("id", intRepr e.id)] ++ optField "description" e.description ++
    [("state", intRepr e.state), ("inverse", intRepr e.inverse),
      ("alarm", intRepr e.alarm), ("justOn", intRepr e.justOn),
      ("timer", intRepr e.timer), ("timerActive", intRepr e.timerActive),
      ("timerRemain", intRepr e.timerRemain), ("delay", intRepr e.delay),
      ("delayActive", intRepr e.delayActive),
      ("delayRemain", intRepr e.delayRemain), ("sensor", intRepr e.sensor),
      ("sensorON", intRepr e.sensorON), ("sensorOFF", intRepr e.sensorOFF)]

/-- JSON fields of a raw PCA record. -/
def pcaJsonFields (e : RawPCA) : List (String × String) :=
  relayJsonFields e.toRawRelay ++
    [("turnOFF", intRepr e.turnOFF), ("turnON", intRepr e.turnON),
      ("fade", intRepr e.fade), ("speed", intRepr e.speed),
      ("mixer", intRepr e.mixer), ("pwm", intRepr e.pwm)]

/-- JSON fields of a raw PWM record. -/
def pwmJsonFields (e : RawPWM) : List (String × String) :=
  [("id", intRepr e.id)] ++ optField "description" e.description ++
    [("state", intRepr e.state), ("turnOFF", intRepr e.turnOFF),
      ("turnON", intRepr e.turnON), ("fade", intRepr e.fade),
      ("speed", intRepr e.speed), ("sensor", intRepr e.sensor),
      ("sensorON", intRepr e.sensorON), ("sensorOFF", intRepr e.sensorOFF)]

/-- JSON fields of a raw group record. -/
def groupJsonFields (e : RawGroup) : List (String × String) :=
  [("id", intRepr e.id)] ++ optField "description" e.description ++
    [("pullUP", intRepr e.pullUP)] ++
    e.elements.map fun p => (p.1, intRepr p.2)

/-- JSON fields of a raw joiner / protection record. -/
def joinerJsonFields (e : RawJoinerProtection) : List (String × String) :=
  [("element0", intRepr e.element0)] ++ optField "element0d" e.element0d ++
    [("element1", intRepr e.element1)] ++ optField "element1d" e.element1d

/-- JSON fields of a raw sensor record. -/
def sensorJsonFields (e : RawSensor) : List (String × String) :=
  [("id", intRepr e.id)] ++ optField "description" e.description ++
    (match e.temp with | some v => [("temp", intRepr v)] | none => []) ++
    (match e.hum with | some v => [("hum", intRepr v)] | none => []) ++
    (match e.imp with | some v => [("imp", intRepr v)] | none => []) ++
    (match e.P with | some v => [("P", intRepr v)] | none => []) ++
    (match e.U with | some v => [("U", intRepr v)] | none => []) ++
    (match e.I with | some v => [("I", intRepr v)] | none => [])

/-- One snapshot family as a pretty-printed JSON object (depth 1). -/
def famBlock {α : Type} (fields : α → List (String × String))
    (m : List (String × α)) : String :=
  objBlock "  " ((jsEntries m).map fun p => (p.1, objBlock "    " (fields p.2)))

/-- The `JSON.stringify(data, null, 2)` rendering of a snapshot document. -/
def sensOutJson (d : SensOutData) : String :=
  objBlock ""
    [("relays", famBlock relayJsonFields d.relays),
      ("PCA", famBlock pcaJsonFields d.PCA),
      ("PWM", famBlock pwmJsonFields d.PWM),
      ("group", famBlock groupJsonFields d.group),
      ("joiner", famBlock joinerJsonFields d.joiner),
      ("protection", famBlock joinerJsonFields d.protection),
      ("sensors", famBlock sensorJsonFields d.sensors)]

/-! ## The MCP tool dispatch (`CallToolRequestSchema` handler)

A tool invocation is a request name with its decoded arguments, plus the
outcome of the one outbound HTTP exchange the handler performs for it
(`Except.error` carries the thrown error's message — transport, decode
or protocol). The handler body runs inside one `try`; the `catch` turns
any thrown error into the tagged failure result. -/

/-- An MCP tool result: one text content block plus the `isError` flag
(absent on success, which reads as `false`). -/
structure McpResult where
  isError : Bool
  text : String
deriving DecidableEq

/-- The `ok` helper of the handler. -/
def mcpOk (text : String) : McpResult := ⟨false, text⟩

/-- The `err` helper of the handler: `❌ `-prefixed message, tagged. -/
def mcpErr (text : String) : McpResult := ⟨true, "❌ " ++ text⟩

/-- A tool invocation, with the outcome of its outbound call. -/
inductive ToolRequest where
  | listDevicesReq (fetch : Except String SensOutData)
  | readSensorsReq (fetch : Except String SensOutData)
  | getStatusReq (fetch : Except String SensOutData)
  | relayOnReq (id : ℤ) (post : Except String Unit)
  | relayOffReq (id : ℤ) (post : Except String Unit)
  | relayToggleReq (id : ℤ) (post : Except String Unit)
  | pcaOnReq (id : ℤ) (post : Except String Unit)
  | pcaOffReq (id : ℤ) (post : Except String Unit)
  | pcaToggleReq (id : ℤ) (post : Except String Unit)
  | pcaSetReq (id : ℤ) (percent : ℚ) (post : Except String Unit)
  | pwmOnReq (id : ℤ) (post : Except String Unit)
  | pwmOffReq (id : ℤ) (post : Except String Unit)
  | pwmToggleReq (id : ℤ) (post : Except String Unit)
  | pwmSetReq (id : ℤ) (percent : ℚ) (post : Except String Unit)
  | groupOnReq (id : ℤ) (post : Except String Unit)
  | groupOffReq (id : ℤ) (post : Except String Unit)
  | groupToggleReq (id : ℤ) (post : Except String Unit)
  | sendCommandReq (raw : String) (post : Except String Unit)
  | unknownReq (name : String)

/-- A command-style case body: success message on `ok`, caught error
otherwise. -/
def cmdCase (post : Except String Unit) (success : String) : McpResult :=
  match post with
  | .ok _ => mcpOk success
  | .error e => mcpErr e

/-- The `switch` of the `CallToolRequestSchema` handler, with its
enclosing `try`/`catch`. -/
def handleToolCall : ToolRequest → McpResult
  | .listDevicesReq (.error e) => mcpErr e
  | .listDevicesReq (.ok data) =>
    let devices := listDevices data
    if devices.isEmpty then mcpOk "No devices found."
    else mcpOk (formatDeviceList devices)
  | .readSensorsReq (.error e) => mcpErr e
  | .readSensorsReq (.ok data) =>
    let sensors := readSensors data
    if sensors.isEmpty then mcpOk "No sensor data available."
    else mcpOk (formatSensorList sensors)
  | .getStatusReq (.error e) => mcpErr e
  | .getStatusReq (.ok data) => mcpOk (sensOutJson data)
  | .relayOnReq id post => cmdCase post ("✅ Relay #" ++ intRepr id ++ " turned ON")
  | .relayOffReq id post => cmdCase post ("✅ Relay #" ++ intRepr id ++ " turned OFF")
  | .relayToggleReq id post => cmdCase post ("✅ Relay #" ++ intRepr id ++ " toggled")
  | .pcaOnReq id post => cmdCase post ("✅ PCA #" ++ intRepr id ++ " turned ON")
  | .pcaOffReq id post => cmdCase post ("✅ PCA #" ++ intRepr id ++ " turned OFF")
  | .pcaToggleReq id post => cmdCase post ("✅ PCA #" ++ intRepr id ++ " toggled")
  | .pcaSetReq id percent post =>
    cmdCase post ("✅ PCA #" ++ intRepr id ++ " set to " ++ qRepr percent ++ "%")
  | .pwmOnReq id post => cmdCase post ("✅ PWM #" ++ intRepr id ++ " turned ON")
  | .pwmOffReq id post => cmdCase post ("✅ PWM #" ++ intRepr id ++ " turned OFF")
  | .pwmToggleReq id post => cmdCase post ("✅ PWM #" ++ intRepr id ++ " toggled")
  | .pwmSetReq id percent post =>
    cmdCase post ("✅ PWM #" ++ intRepr id ++ " set to " ++ qRepr percent ++ "%")
  | .groupOnReq id post => cmdCase post ("✅ Group #" ++ intRepr id ++ " turned ON")
  | .groupOffReq id post => cmdCase post ("✅ Group #" ++ intRepr id ++ " turned OFF")
  | .groupToggleReq id post => cmdCase post ("✅ Group #" ++ intRepr id ++ " toggled")
  | .sendCommandReq raw post =>
    match parseRawCommands raw with
    | none => mcpErr "URI malformed"
    | some _ => cmdCase post ("✅ Command sent: " ++ raw)
  | .unknownReq name => mcpErr ("Unknown tool: " ++ name)

/-- The outcome of the work a request performs inside the `try` block:
`error` is the message of the exception that reaches the `catch`
(for `myio_send_command`, a `URIError` from `decodeURIComponent` is
thrown before the POST is attempted). -/
def requestOutcome : ToolRequest → Except String Unit
  | .listDevicesReq fetch => fetch.map fun _ => ()
  | .readSensorsReq fetch => fetch.map fun _ => ()
  | .getStatusReq fetch => fetch.map fun _ => ()
  | .relayOnReq _ post => post
  | .relayOffReq _ post => post
  | .relayToggleReq _ post => post
  | .pcaOnReq _ post => post
  | .pcaOffReq _ post => post
  | .pcaToggleReq _ post => post
  | .pcaSetReq _ _ post => post
  | .pwmOnReq _ post => post
  | .pwmOffReq _ post => post
  | .pwmToggleReq _ post => post
  | .pwmSetReq _ _ post => post
  | .groupOnReq _ post => post
  | .groupOffReq _ post => post
  | .groupToggleReq _ post => post
  | .sendCommandReq raw post =>
    match parseRawCommands raw with
    | none => .error "URI malformed"
    | some _ => post
  | .unknownReq _ => .ok ()

/-- The message of the error thrown during a request, if any. -/
def thrownError (req : ToolRequest) : Option String :=
  match requestOutcome req with
  | .error e => some e
  | .ok _ => none

/-- Whether a request names a tool outside the catalog. -/
def isUnknownTool : ToolRequest → Bool
  | .unknownReq _ => true
  | _ => false

/-! ## Concrete sample data -/

/-- A relay record with no description, as in the spec's example. -/
def relaySample : RawRelay := { id := 7, state := 1 }

/-- A sensor record exposing both `temp` and `hum` (priority exercise). -/
def sensorTempHum : RawSensor := { id := 5, temp := some 2215, hum := some 99 }

/-- A sensor record exposing none of the six measurement fields. -/
def sensorNoField : RawSensor := { id := 6, description := some "Aux" }

/-- A small snapshot containing the samples above. -/
def snapSample : SensOutData :=
  { relays := [("7", relaySample)], sensors := [("5", sensorTempHum)] }

/-- The reading decoded from `sensorTempHum`. -/
def sensorReadingSample : SensorReading :=
  ⟨5, "Sensor 5", .temperature, ((2215 : ℤ) : ℚ) / 100, "°C", 2215⟩

/-! ## Helper lemmas -/

/-- A push loop over a list is the map over it. -/
theorem foldl_push_eq_map {α β : Type} (l : List α) (f : α → β)
    (init : List β) :
    l.foldl (fun acc x => acc ++ [f x]) init = init ++ l.map f := by
  induction l generalizing init with
  | nil => simp
  | cons x xs ih => simp [List.foldl_cons, ih]

/-- A conditional push loop over a list is the `filterMap` over it. -/
theorem foldl_push_eq_filterMap {α β : Type} (l : List α) (f : α → Option β)
    (init : List β) :
    l.foldl (fun acc x => acc ++ (f x).toList) init = init ++ l.filterMap f := by
  induction l generalizing init with
  | nil => simp
  | cons x xs ih =>
    simp only [List.foldl_cons, ih, List.filterMap_cons]
    cases f x <;> simp

theorem mem_insertByIndex {α : Type} {q p : String × α}
    {l : List (String × α)} (h : q ∈ insertByIndex p l) : q = p ∨ q ∈ l := by
  induction l with
  | nil => simpa [insertByIndex] using h
  | cons r rest ih =>
    rw [insertByIndex] at h
    by_cases hle : arrayIndexVal p.1 ≤ arrayIndexVal r.1
    · rw [if_pos hle] at h
      exact List.mem_cons.mp h
    · rw [if_neg hle] at h
      rcases List.mem_cons.mp h with h' | h'
      · exact .inr (by simp [h'])
      · rcases ih h' with h'' | h''
        · exact .inl h''
        · exact .inr (List.mem_cons_of_mem _ h'')

theorem mem_foldr_insertByIndex {α : Type} {q : String × α}
    {l : List (String × α)} (h : q ∈ l.foldr insertByIndex []) : q ∈ l := by
  induction l with
  | nil => simp at h
  | cons r rest ih =>
    rcases mem_insertByIndex h with h' | h'
    · exact h' ▸ List.mem_cons_self _ _
    · exact List.mem_cons_of_mem _ (ih h')

/-- Every enumerated entry is an entry of the object. -/
theorem mem_of_mem_jsEntries {α : Type} {q : String × α}
    {m : List (String × α)} (h : q ∈ jsEntries m) : q ∈ m := by
  rw [jsEntries] at h
  rcases List.mem_append.mp h with h' | h'
  · exact (List.mem_filter.mp (mem_foldr_insertByIndex h')).1
  · exact (List.mem_filter.mp h').1

/-- Objects with no array-index keys are enumerated in creation order. -/
theorem jsEntries_eq_self {α : Type} {m : List (String × α)}
    (h : ∀ p ∈ m, isArrayIndexKey p.1 = false) : jsEntries m = m := by
  rw [jsEntries]
  have h₁ : m.filter (fun p => isArrayIndexKey p.1) = [] :=
    List.filter_eq_nil_iff.mpr (by intro p hp; simp [h p hp])
  have h₂ : m.filter (fun p => !isArrayIndexKey p.1) = m :=
    List.filter_eq_self.mpr (by intro p hp; simp [h p hp])
  simp [h₁, h₂]

theorem digitChar_isDigit {d : ℕ} (h : d < 10) : (digitChar d).isDigit := by
  interval_cases d <;> decide

theorem natDigitsAux_isDigit (f : ℕ) : ∀ n, ∀ c ∈ natDigitsAux f n, c.isDigit := by
  induction f with
  | zero => intro n c hc; simp [natDigitsAux] at hc
  | succ f ih =>
    intro n c hc
    rw [natDigitsAux] at hc
    split at hc
    · rw [List.mem_singleton] at hc
      exact hc ▸ digitChar_isDigit (by omega)
    · rcases List.mem_append.mp hc with h' | h'
      · exact ih (n / 10) c h'
      · rw [List.mem_singleton] at h'
        exact h' ▸ digitChar_isDigit (Nat.mod_lt _ (by omega))

theorem natDigits_isDigit (n : ℕ) : ∀ c ∈ natDigits n, c.isDigit :=
  natDigitsAux_isDigit (n + 1) n

/-- Every character of a rendered integer is a digit or the minus sign. -/
theorem intRepr_chars (i : ℤ) : ∀ c ∈ (intRepr i).data, c.isDigit ∨ c = '-' := by
  intro c hc
  rw [intRepr] at hc
  split at hc
  · rcases List.mem_append.mp hc with h' | h'
    · right; simpa using h'
    · left; exact natDigits_isDigit _ c h'
  · left; exact natDigits_isDigit _ c hc

theorem isUnreservedURI_of_digit {c : Char} (h : c.isDigit) :
    isUnreservedURI c := by
  simp [isUnreservedURI, Char.isAlphanum, h]

/-- Our `encodeURIComponent` is the identity on strings of unreserved
characters. -/
theorem encodeURIComponent_unreserved {s : String}
    (h : ∀ c ∈ s.data, isUnreservedURI c) : encodeURIComponent s = s := by
  have key : ∀ l : List Char, (∀ c ∈ l, isUnreservedURI c) →
      (l.map fun c =>
        if isUnreservedURI c then [c]
        else (utf8Bytes c).map pctByte |>.flatten).flatten = l := by
    intro l hl
    induction l with
    | nil => simp
    | cons c cs ih =>
      simp only [List.mem_cons, forall_eq_or_imp] at hl
      simp [hl.1, ih hl.2]
  exact congrArg String.mk (key s.data h)

/-- A key starting with a non-digit character is not an array index. -/
theorem isArrayIndexKey_eq_false (s : String) (c : Char) (cs : List Char)
    (hd : s.data = c :: cs) (hc : c.isDigit = false) :
    isArrayIndexKey s = false := by
  rw [isArrayIndexKey, canonicalNatOf, hd]
  simp [hc]

/-- JS `Math.round` is the identity on integers. -/
theorem jsRound_intCast (m : ℤ) : jsRound (m : ℚ) = m := by
  rw [jsRound, Int.floor_eq_iff]
  constructor <;> [skip; push_cast] <;> norm_num

theorem clampRound_nonneg (p : ℚ) : 0 ≤ clampRound p := le_max_left _ _

theorem clampRound_le (p : ℚ) : clampRound p ≤ 100 := by
  rw [clampRound]
  rcases le_total 0 (min 100 (jsRound p)) with h | h
  · rw [max_eq_right h]; exact min_le_left _ _
  · rw [max_eq_left h]; norm_num

theorem mem_objInsert {α : Type} {q : String × α} {m : List (String × α)}
    {k : String} {v : α} (h : q ∈ objInsert m k v) : q = (k, v) ∨ q ∈ m := by
  rw [objInsert] at h
  split at h
  · rcases List.mem_map.mp h with ⟨p, hp, hq⟩
    by_cases hk : p.1 = k
    · rw [if_pos hk] at hq; exact .inl hq.symm
    · rw [if_neg hk] at hq; exact .inr (hq ▸ hp)
  · rcases List.mem_append.mp h with h' | h'
    · exact .inr h'
    · exact .inl (by simpa using h')

/-- Writing a property never removes keys: every key present before the
write is present after it. -/
theorem objInsert_preserves_key {α : Type} {m : List (String × α)}
    {k₀ : String} (k : String) (v : α) (h : ∃ q ∈ m, q.1 = k₀) :
    ∃ q ∈ objInsert m k v, q.1 = k₀ := by
  rcases h with ⟨q, hq, hk⟩
  rw [objInsert]
  split
  · by_cases hqk : q.1 = k
    · exact ⟨(k, v), List.mem_map.mpr ⟨q, hq, by simp [hqk]⟩, by
        simp [← hqk, hk]⟩
    · exact ⟨q, List.mem_map.mpr ⟨q, hq, by simp [hqk]⟩, hk⟩
  · exact ⟨q, List.mem_append_left _ hq, hk⟩

/-- The written key is present after the write. -/
theorem objInsert_mem_key {α : Type} (m : List (String × α))
    (k : String) (v : α) : ∃ q ∈ objInsert m k v, q.1 = k := by
  rw [objInsert]
  split
  · rename_i hex
    rcases List.any_eq_true.mp hex with ⟨q, hq, hk⟩
    exact ⟨(k, v), List.mem_map.mpr ⟨q, hq, by simp [of_decide_eq_true hk]⟩, rfl⟩
  · exact ⟨(k, v), List.mem_append_right _ (by simp), rfl⟩

/-- Any emitted reading's description is the record's, defaulted to
`"Sensor <id>"`. -/
theorem decodeSensor_description {s : RawSensor} {r : SensorReading}
    (h : decodeSensor s = some r) :
    r.description = s.description.getD ("Sensor " ++ intRepr s.id) := by
  rcases hT : s.temp with _ | v₁ <;> rcases hH : s.hum with _ | v₂ <;>
    rcases hI : s.imp with _ | v₃ <;> rcases hP : s.P with _ | v₄ <;>
    rcases hU : s.U with _ | v₅ <;> rcases hJ : s.I with _ | v₆ <;>
    simp only [decodeSensor, hT, hH, hI, hP, hU, hJ, Option.some.injEq] at h <;>
    first
    | exact Option.noConfusion h
    | (subst h; rfl)

/-- Any emitted reading's value is its raw integer over 100, and the raw
integer is the first measurement field present on the record. -/
theorem decodeSensor_value_raw {s : RawSensor} {r : SensorReading}
    (h : decodeSensor s = some r) :
    r.value = (r.raw : ℚ) / 100 ∧ firstSensorField s = some r.raw := by
  rcases hT : s.temp with _ | v₁ <;> rcases hH : s.hum with _ | v₂ <;>
    rcases hI : s.imp with _ | v₃ <;> rcases hP : s.P with _ | v₄ <;>
    rcases hU : s.U with _ | v₅ <;> rcases hJ : s.I with _ | v₆ <;>
    simp only [decodeSensor, hT, hH, hI, hP, hU, hJ, Option.some.injEq] at h <;>
    first
    | exact Option.noConfusion h
    | (subst h; exact ⟨rfl, by simp [firstSensorField, hT, hH, hI, hP, hU, hJ]⟩)

/-- The `readSensors` loop is the `filterMap` of the record decode over
the sensors family. -/
theorem readSensors_eq_filterMap (data : SensOutData) :
    readSensors data = (jsValues data.sensors).filterMap decodeSensor := by
  rw [readSensors, foldl_push_eq_filterMap, List.nil_append]

theorem intRepr_unreserved (i : ℤ) : ∀ c ∈ (intRepr i).data, isUnreservedURI c := by
  intro c hc
  rcases intRepr_chars i c hc with h | h
  · exact isUnreservedURI_of_digit h
  · subst h; decide

theorem encode_intRepr (i : ℤ) : encodeURIComponent (intRepr i) = intRepr i :=
  encodeURIComponent_unreserved (intRepr_unreserved i)

/-- An unreserved prefix followed by a rendered integer passes through
`encodeURIComponent` unchanged. -/
theorem encode_prefix_intRepr (pre : String)
    (hpre : ∀ c ∈ pre.data, isUnreservedURI c) (i : ℤ) :
    encodeURIComponent (pre ++ intRepr i) = pre ++ intRepr i :=
  encodeURIComponent_unreserved (fun c hc => by
    rw [String.data_append] at hc
    rcases List.mem_append.mp hc with h | h
    exacts [hpre c h, intRepr_unreserved i c h])

/-- The body `sendCommand` builds for a one-pair command map whose key is
not an array index. -/
theorem sendCommandBody_singleton (k : String) (v : CmdVal)
    (h : isArrayIndexKey k = false) :
    sendCommandBody [(k, v)] =
      encodeURIComponent k ++ "=" ++ encodeURIComponent v.render := by
  rw [sendCommandBody, jsEntries_eq_self]
  · simp [joinWith]
  · intro p hp
    rw [List.mem_singleton] at hp
    subst hp
    exact h

theorem pcaKey_not_index (i : ℤ) :
    isArrayIndexKey ("PCA*" ++ intRepr i) = false := by
  apply isArrayIndexKey_eq_false _ 'P' (['C', 'A', '*'] ++ (intRepr i).data)
  · rw [String.data_append]; rfl
  · decide

theorem fetKey_not_index (i : ℤ) :
    isArrayIndexKey ("fet*" ++ intRepr i) = false := by
  apply isArrayIndexKey_eq_false _ 'f' (['e', 't', '*'] ++ (intRepr i).data)
  · rw [String.data_append]; rfl
  · decide

/-- The wire body of `pcaSet(id, percent)`, for all inputs. -/
theorem pcaSetBody_eq (j : ℤ) (q : ℚ) :
    pcaSetBody j q = "PCA*" ++ intRepr j ++ "=" ++ intRepr (clampRound q) := by
  rw [pcaSetBody, pcaSetCommands,
    sendCommandBody_singleton _ _ (pcaKey_not_index j),
    encode_prefix_intRepr _ (by decide) j]
  rw [show (CmdVal.num (clampRound q)).render = intRepr (clampRound q) from rfl,
    encode_intRepr]

/-- The wire body of `pwmSet(id, percent)`, for all inputs. -/
theorem pwmSetBody_eq (j : ℤ) (q : ℚ) :
    pwmSetBody j q = "fet*" ++ intRepr (j - 100) ++ "=" ++ intRepr (clampRound q) := by
  rw [pwmSetBody, pwmSetCommands,
    sendCommandBody_singleton _ _ (fetKey_not_index (j - 100)),
    encode_prefix_intRepr _ (by decide) (j - 100)]
  rw [show (CmdVal.num (clampRound q)).render = intRepr (clampRound q) from rfl,
    encode_intRepr]

theorem clampRound_150 : clampRound (150 : ℚ) = 100 := by
  have hf : ⌊(150 : ℚ) + 1 / 2⌋ = 150 := by
    rw [Int.floor_eq_iff]; norm_num
  rw [clampRound, jsRound, hf]; decide

theorem clampRound_neg10 : clampRound (-10 : ℚ) = 0 := by
  have hf : ⌊(-10 : ℚ) + 1 / 2⌋ = -10 := by
    rw [Int.floor_eq_iff]; norm_num
  rw [clampRound, jsRound, hf]; decide

/-! ## Claim theorems -/

/-- C6: the percent normalization `clamp(round(·), 0, 100)` used by
`pcaSet` and `pwmSet` is idempotent, so re-encoding an
already-normalized value produces the identical wire value. -/
theorem clampRound_idempotent (p : ℚ) :
    clampRound ((clampRound p : ℤ) : ℚ) = clampRound p ∧
    (∀ id, pcaSetBody id ((clampRound p : ℤ) : ℚ) = pcaSetBody id p) ∧
    (∀ id, pwmSetBody id ((clampRound p : ℤ) : ℚ) = pwmSetBody id p) := by
  have h₀ := clampRound_nonneg p
  have h₁ := clampRound_le p
  have hmain : clampRound ((clampRound p : ℤ) : ℚ) = clampRound p := by
    rw [clampRound, jsRound_intCast, min_eq_right h₁, max_eq_right h₀]
  exact ⟨hmain,
    fun id => by rw [pcaSetBody, pcaSetCommands, hmain, ← pcaSetCommands, ← pcaSetBody],
    fun id => by rw [pwmSetBody, pwmSetCommands, hmain, ← pwmSetCommands, ← pwmSetBody]⟩

/-- C3: relay boolean state is true iff the raw state equals 1 and a
relay carries no level; PCA / PWM boolean state is true iff the raw
state is strictly positive, with `levelPercent = round(state / 255 × 100)`;
a group's boolean state is always false with no level. -/
theorem device_state_decoding (r : RawRelay) (p : RawPCA) (w : RawPWM)
    (g : RawGroup) :
    ((decodeRelay r).state = true ↔ r.state = 1) ∧
    (decodeRelay r).levelPercent = none ∧
    ((decodePCA p).state = true ↔ 0 < p.state) ∧
    (decodePCA p).levelPercent = some (jsRound ((p.state : ℚ) / 255 * 100)) ∧
    ((decodePWM w).state = true ↔ 0 < w.state) ∧
    (decodePWM w).levelPercent = some (jsRound ((w.state : ℚ) / 255 * 100)) ∧
    (decodeGroup g).state = false ∧
    (decodeGroup g).levelPercent = none := by
  refine ⟨?_, rfl, ?_, rfl, ?_, rfl, rfl, rfl⟩
  · simp [decodeRelay]
  · simp [decodePCA]
  · simp [decodePWM]

/-- C10: `listDevices` returns all relay records first, then PCA, then
PWM, then group records, and entries of the joiner and protection
families never contribute a device record. -/
theorem listDevices_family_order (data : SensOutData) :
    listDevices data =
      (jsValues data.relays).map decodeRelay ++
      (jsValues data.PCA).map decodePCA ++
      (jsValues data.PWM).map decodePWM ++
      (jsValues data.group).map decodeGroup ∧
    (∀ e, (decodeRelay e).type = .relay) ∧
    (∀ e, (decodePCA e).type = .pca) ∧
    (∀ e, (decodePWM e).type = .pwm) ∧
    (∀ e, (decodeGroup e).type = .group) ∧
    ∀ j q, listDevices { data with joiner := j, protection := q } =
      listDevices data := by
  refine ⟨?_, fun _ => rfl, fun _ => rfl, fun _ => rfl, fun _ => rfl,
    fun _ _ => rfl⟩
  simp only [listDevices, foldl_push_eq_map, List.nil_append, List.append_assoc]

/-- C4: for every id and percent input, `pcaSet` encodes the single pair
`PCA*<id> = clamp(round(p), 0, 100)` with the id unmodified, and `pwmSet`
encodes `fet*<id-100>` with the same normalized value; in particular
`pcaSet(2001, 150)` posts `PCA*2001=100` and `pwmSet(105, -10)` posts
`fet*5=0`. -/
theorem setLevel_encoding (id : ℤ) (p : ℚ) :
    pcaSetCommands id p = [("PCA*" ++ intRepr id, CmdVal.num (clampRound p))] ∧
    pwmSetCommands id p =
      [("fet*" ++ intRepr (id - 100), CmdVal.num (clampRound p))] ∧
    pcaSetBody id p = "PCA*" ++ intRepr id ++ "=" ++ intRepr (clampRound p) ∧
    pwmSetBody id p =
      "fet*" ++ intRepr (id - 100) ++ "=" ++ intRepr (clampRound p) ∧
    pcaSetBody 2001 150 = "PCA*2001=100" ∧
    pwmSetBody 105 (-10) = "fet*5=0" := by
  refine ⟨rfl, rfl, pcaSetBody_eq id p, pwmSetBody_eq id p, ?_, ?_⟩
  · rw [pcaSetBody_eq, clampRound_150]; decide
  · rw [pwmSetBody_eq, clampRound_neg10]; decide

/-- C7: a record with no description decodes with the synthesized label
`"<TypeName> <id>"` (Relay, PCA, PWM, Group, Sensor); a record that
carries a description keeps it unchanged. -/
theorem description_defaulting (r : RawRelay) (p : RawPCA) (w : RawPWM)
    (g : RawGroup) (s : RawSensor) :
    (r.description = none →
      (decodeRelay r).description = "Relay " ++ intRepr r.id) ∧
    (∀ d, r.description = some d → (decodeRelay r).description = d) ∧
    (p.description = none →
      (decodePCA p).description = "PCA " ++ intRepr p.id) ∧
    (∀ d, p.description = some d → (decodePCA p).description = d) ∧
    (w.description = none →
      (decodePWM w).description = "PWM " ++ intRepr w.id) ∧
    (∀ d, w.description = some d → (decodePWM w).description = d) ∧
    (g.description = none →
      (decodeGroup g).description = "Group " ++ intRepr g.id) ∧
    (∀ d, g.description = some d → (decodeGroup g).description = d) ∧
    (s.description = none → ∀ rd, decodeSensor s = some rd →
      rd.description = "Sensor " ++ intRepr s.id) ∧
    (∀ d, s.description = some d → ∀ rd, decodeSensor s = some rd →
      rd.description = d) := by
  refine ⟨fun h => by simp [decodeRelay, h], fun d h => by simp [decodeRelay, h],
    fun h => by simp [decodePCA, h], fun d h => by simp [decodePCA, h],
    fun h => by simp [decodePWM, h], fun d h => by simp [decodePWM, h],
    fun h => by simp [decodeGroup, h], fun d h => by simp [decodeGroup, h],
    fun h rd hrd => by rw [decodeSensor_description hrd, h]; rfl,
    fun d h rd hrd => by rw [decodeSensor_description hrd, h]; rfl⟩

/-- Witness for C7 at the spec's concrete example: relay id 7 with no
description decodes as "Relay 7"; a sensor record keeps its own
description. -/
theorem description_defaulting_witness :
    (decodeRelay relaySample).description = "Relay 7" ∧
    ∀ rd, decodeSensor sensorNoField = some rd → rd.description = "Aux" :=
  ⟨(description_defaulting relaySample {toRawRelay := relaySample}
      {id := 0, state := 0} {id := 0, pullUP := 0} sensorNoField).1 rfl,
    (description_defaulting relaySample {toRawRelay := relaySample}
      {id := 0, state := 0} {id := 0, pullUP := 0} sensorNoField).2.2.2.2.2.2.2.2.2
      "Aux" rfl⟩

/-- C1: `readSensors` decodes each sensor record by the field priority
`temp, hum, imp, P, U, I`, emitting exactly one reading typed and united
by the first present field with value that field over 100, and emitting
nothing for a record with none of the six fields. -/
theorem readSensors_priority (s : RawSensor) :
    (∀ data, readSensors data = (jsValues data.sensors).filterMap decodeSensor) ∧
    (∀ v, s.temp = some v → decodeSensor s = some
      ⟨s.id, s.description.getD ("Sensor " ++ intRepr s.id), .temperature,
        (v : ℚ) / 100, "°C", v⟩) ∧
    (s.temp = none → ∀ v, s.hum = some v → decodeSensor s = some
      ⟨s.id, s.description.getD ("Sensor " ++ intRepr s.id), .humidity,
        (v : ℚ) / 100, "%", v⟩) ∧
    (s.temp = none → s.hum = none → ∀ v, s.imp = some v → decodeSensor s = some
      ⟨s.id, s.description.getD ("Sensor " ++ intRepr s.id), .energy,
        (v : ℚ) / 100, "kWh", v⟩) ∧
    (s.temp = none → s.hum = none → s.imp = none → ∀ v, s.P = some v →
      decodeSensor s = some
        ⟨s.id, s.description.getD ("Sensor " ++ intRepr s.id), .power,
          (v : ℚ) / 100, "kW", v⟩) ∧
    (s.temp = none → s.hum = none → s.imp = none → s.P = none → ∀ v,
      s.U = some v → decodeSensor s = some
        ⟨s.id, s.description.getD ("Sensor " ++ intRepr s.id), .voltage,
          (v : ℚ) / 100, "V", v⟩) ∧
    (s.temp = none → s.hum = none → s.imp = none → s.P = none → s.U = none →
      ∀ v, s.I = some v → decodeSensor s = some
        ⟨s.id, s.description.getD ("Sensor " ++ intRepr s.id), .current,
          (v : ℚ) / 100, "A", v⟩) ∧
    (s.temp = none → s.hum = none → s.imp = none → s.P = none → s.U = none →
      s.I = none → decodeSensor s = none) := by
  refine ⟨readSensors_eq_filterMap,
    fun v h => by simp [decodeSensor, h],
    fun h₁ v h => by simp [decodeSensor, h₁, h],
    fun h₁ h₂ v h => by simp [decodeSensor, h₁, h₂, h],
    fun h₁ h₂ h₃ v h => by simp [decodeSensor, h₁, h₂, h₃, h],
    fun h₁ h₂ h₃ h₄ v h => by simp [decodeSensor, h₁, h₂, h₃, h₄, h],
    fun h₁ h₂ h₃ h₄ h₅ v h => by simp [decodeSensor, h₁, h₂, h₃, h₄, h₅, h],
    fun h₁ h₂ h₃ h₄ h₅ h₆ => by simp [decodeSensor, h₁, h₂, h₃, h₄, h₅, h₆]⟩

/-- Witness for C1: a record exposing `temp` and `hum` yields exactly the
temperature reading (priority), and a record exposing no measurement
field yields no reading. -/
theorem readSensors_priority_witness :
    decodeSensor sensorTempHum = some
      ⟨5, "Sensor 5", .temperature, ((2215 : ℤ) : ℚ) / 100, "°C", 2215⟩ ∧
    decodeSensor sensorNoField = none ∧
    readSensors snapSample = (jsValues snapSample.sensors).filterMap decodeSensor :=
  ⟨(readSensors_priority sensorTempHum).2.1 2215 rfl,
    (readSensors_priority sensorNoField).2.2.2.2.2.2.2 rfl rfl rfl rfl rfl rfl,
    (readSensors_priority sensorNoField).1 snapSample⟩

/-- C2: every reading produced by `readSensors` has value equal to its
raw integer divided by 100 (exact rational division) and its raw field is
the untouched integer of the matched measurement field of some record of
the snapshot's sensors family. -/
theorem readSensors_value_raw (data : SensOutData) (r : SensorReading)
    (h : r ∈ readSensors data) :
    r.value = (r.raw : ℚ) / 100 ∧
    ∃ p ∈ data.sensors, firstSensorField p.2 = some r.raw := by
  rw [readSensors_eq_filterMap] at h
  rcases List.mem_filterMap.mp h with ⟨s, hs, hd⟩
  rw [jsValues] at hs
  rcases List.mem_map.mp hs with ⟨q, hq, rfl⟩
  exact ⟨(decodeSensor_value_raw hd).1,
    ⟨q, mem_of_mem_jsEntries hq, (decodeSensor_value_raw hd).2⟩⟩

/-- Witness for C2 at the concrete sample snapshot. -/
theorem readSensors_value_raw_witness :
    sensorReadingSample.value = (sensorReadingSample.raw : ℚ) / 100 ∧
    ∃ p ∈ snapSample.sensors, firstSensorField p.2 = some sensorReadingSample.raw :=
  readSensors_value_raw snapSample sensorReadingSample (by
    rw [show readSensors snapSample = [sensorReadingSample] from rfl]
    exact List.mem_singleton.mpr rfl)

/-- Counterexample to C5 as stated: a command map whose keys are the
array-index strings "2" and "1" is *not* serialized in insertion order —
`Object.entries` enumerates array-index keys first in ascending numeric
order, so `{"2": 1, "1": 2}` serializes to `1=2&2=1`, not `2=1&1=2`. -/
theorem sendCommand_insertion_order_cex :
    sendCommandBody [("2", .num 1), ("1", .num 2)] = "1=2&2=1" ∧
    sendCommandBody [("2", .num 1), ("1", .num 2)] ≠ "2=1&1=2" := by
  constructor <;> decide

/-- C5 (amended): for every command map none of whose keys is an
ECMAScript array-index string — which covers every command map the
adapter itself builds — `sendCommand` serializes the body as the
`&`-joined percent-encoded `key=value` pairs in insertion order. -/
theorem sendCommand_insertion_order (m : List (String × CmdVal))
    (h : ∀ p ∈ m, isArrayIndexKey p.1 = false) :
    sendCommandBody m = joinWith "&" (m.map fun p =>
      encodeURIComponent p.1 ++ "=" ++ encodeURIComponent p.2.render) := by
  rw [sendCommandBody, jsEntries_eq_self h]

/-- Witness for C5 (amended) at the spec's scenario:
`{r_ON: 16, PCA_OFF: 2001}` serializes to exactly `r_ON=16&PCA_OFF=2001`. -/
theorem sendCommand_insertion_order_witness :
    sendCommandBody [("r_ON", .num 16), ("PCA_OFF", .num 2001)] =
      "r_ON=16&PCA_OFF=2001" := by
  rw [sendCommand_insertion_order _ (by decide)]
  decide

/-- Invariants of the raw-command parse loop, generalized over the
accumulator: every final pair was decoded from some kept segment (with
the value cut off at the second `=`), keys never disappear once written,
and every kept segment's decoded key appears among the final keys. -/
theorem parseRawAux_spec (segs : List String) :
    ∀ acc m, parseRawAux segs acc = some m →
    (∀ p ∈ m, p ∈ acc ∨ ∃ seg ∈ segs, ∃ k v rest,
      jsSplit '=' seg = k :: v :: rest ∧ k ≠ "" ∧
      decodeURIComponent k = some p.1 ∧ decodeURIComponent v = some p.2) ∧
    (∀ k₀, (∃ q ∈ acc, q.1 = k₀) → ∃ q ∈ m, q.1 = k₀) ∧
    (∀ seg ∈ segs, ∀ k v rest, jsSplit '=' seg = k :: v :: rest → k ≠ "" →
      ∃ dk, decodeURIComponent k = some dk ∧ ∃ q ∈ m, q.1 = dk) := by
  induction segs with
  | nil =>
    intro acc m h
    obtain rfl : acc = m := by simpa [parseRawAux] using h
    exact ⟨fun p hp => .inl hp, fun k₀ hk => hk, by simp⟩
  | cons seg rest ih =>
    intro acc m h
    rw [parseRawAux] at h
    rcases hs : jsSplit '=' seg with _ | ⟨k, _ | ⟨v, tail⟩⟩ <;>
      simp only [hs] at h
    · rcases ih acc m h with ⟨hprov, hkeys, hkept⟩
      refine ⟨fun p hp => (hprov p hp).imp_right
          (fun ⟨sg, hsg, w⟩ => ⟨sg, List.mem_cons_of_mem _ hsg, w⟩),
        hkeys, ?_⟩
      intro sg hsg k' v' rest' hsp hk'
      rcases List.mem_cons.mp hsg with rfl | hsg'
      · rw [hs] at hsp; exact absurd hsp (by simp)
      · exact hkept sg hsg' k' v' rest' hsp hk'
    · rcases ih acc m h with ⟨hprov, hkeys, hkept⟩
      refine ⟨fun p hp => (hprov p hp).imp_right
          (fun ⟨sg, hsg, w⟩ => ⟨sg, List.mem_cons_of_mem _ hsg, w⟩),
        hkeys, ?_⟩
      intro sg hsg k' v' rest' hsp hk'
      rcases List.mem_cons.mp hsg with rfl | hsg'
      · rw [hs] at hsp; exact absurd hsp (by simp)
      · exact hkept sg hsg' k' v' rest' hsp hk'
    · by_cases hk : k = ""
      · rw [if_pos hk] at h
        rcases ih acc m h with ⟨hprov, hkeys, hkept⟩
        refine ⟨fun p hp => (hprov p hp).imp_right
            (fun ⟨sg, hsg, w⟩ => ⟨sg, List.mem_cons_of_mem _ hsg, w⟩),
          hkeys, ?_⟩
        intro sg hsg k' v' rest' hsp hk'
        rcases List.mem_cons.mp hsg with rfl | hsg'
        · rw [hs] at hsp
          obtain ⟨rfl, -, -⟩ : k = k' ∧ v = v' ∧ tail = rest' := by
            simpa using hsp
          exact absurd hk hk'
        · exact hkept sg hsg' k' v' rest' hsp hk'
      · rw [if_neg hk] at h
        rcases hdk : decodeURIComponent k with _ | dk <;>
          rcases hdv : decodeURIComponent v with _ | dv <;>
          simp only [hdk, hdv] at h <;>
          try exact Option.noConfusion h
        rcases ih (objInsert acc dk dv) m h with ⟨hprov, hkeys, hkept⟩
        refine ⟨?_, ?_, ?_⟩
        · intro p hp
          rcases hprov p hp with hp' | hp'
          · rcases mem_objInsert hp' with rfl | hp''
            · exact .inr ⟨seg, List.mem_cons_self _ _,
                k, v, tail, hs, hk, hdk, hdv⟩
            · exact .inl hp''
          · exact .inr (hp'.imp fun sg hw =>
              ⟨List.mem_cons_of_mem _ hw.1, hw.2⟩)
        · intro k₀ hk₀
          exact hkeys k₀ (objInsert_preserves_key dk dv hk₀)
        · intro sg hsg k' v' rest' hsp hk'
          rcases List.mem_cons.mp hsg with rfl | hsg'
          · rw [hs] at hsp
            obtain ⟨rfl, rfl, rfl⟩ : k = k' ∧ v = v' ∧ tail = rest' := by
              simpa using hsp
            exact ⟨dk, hdk, hkeys dk (objInsert_mem_key acc dk dv)⟩
          · exact hkept sg hsg' k' v' rest' hsp hk'

/-- C9: the raw-command parser splits on `&`; it keeps exactly the
segments that contain `=` with a non-empty key (every final pair comes
from such a segment, and every such segment's decoded key appears in the
result); a kept segment's value is only the text between the first and
second `=`; and the kept pairs are percent-decoded and then re-encoded
into the posted body. -/
theorem rawCommand_parse_spec (raw : String) (m : List (String × String))
    (h : parseRawCommands raw = some m) :
    (∀ p ∈ m, ∃ seg ∈ jsSplit '&' raw, ∃ k v rest,
      jsSplit '=' seg = k :: v :: rest ∧ k ≠ "" ∧
      decodeURIComponent k = some p.1 ∧ decodeURIComponent v = some p.2) ∧
    (∀ seg ∈ jsSplit '&' raw, ∀ k v rest, jsSplit '=' seg = k :: v :: rest →
      k ≠ "" → ∃ dk, decodeURIComponent k = some dk ∧ ∃ q ∈ m, q.1 = dk) ∧
    rawCommandBody raw =
      some (sendCommandBody (m.map fun p => (p.1, CmdVal.str p.2))) := by
  rcases parseRawAux_spec (jsSplit '&' raw) [] m h with ⟨hprov, -, hkept⟩
  refine ⟨fun p hp => (hprov p hp).resolve_left (by simp), hkept, ?_⟩
  rw [rawCommandBody, h]
  rfl

/-- Witness for C9: the input `a=b=c&x&=y` keeps only the segment
`a=b=c`, truncating its value at the second `=` — the parse yields
exactly the pair `a=b` and the posted body is `a=b`. -/
theorem rawCommand_parse_spec_witness :
    parseRawCommands "a=b=c&x&=y" = some [("a", "b")] ∧
    rawCommandBody "a=b=c&x&=y" =
      some (sendCommandBody [("a", CmdVal.str "b")]) ∧
    (∃ seg ∈ jsSplit '&' "a=b=c&x&=y", ∃ k v rest,
      jsSplit '=' seg = k :: v :: rest ∧ k ≠ "" ∧
      decodeURIComponent k = some "a" ∧ decodeURIComponent v = some "b") :=
  ⟨by decide,
    (rawCommand_parse_spec "a=b=c&x&=y" [("a", "b")] (by decide)).2.2,
    (rawCommand_parse_spec "a=b=c&x&=y" [("a", "b")] (by decide)).1
      ("a", "b") (by decide)⟩

/-- C8: every tool invocation yields a tagged success-or-failure result;
whenever the work inside the handler's `try` throws, the result is the
failure result carrying that error's message, and when nothing throws the
result is flagged as an error exactly for a tool outside the catalog. -/
theorem tool_errors_surfaced (req : ToolRequest) :
    (∀ e, thrownError req = some e → handleToolCall req = mcpErr e) ∧
    (thrownError req = none →
      ((handleToolCall req).isError = true ↔ isUnknownTool req = true)) := by
  cases req with
  | listDevicesReq fetch =>
    cases fetch with
    | error e =>
      exact ⟨fun e' he => by obtain rfl := Option.some.inj he; rfl,
        fun hn => Option.noConfusion hn⟩
    | ok d =>
      refine ⟨fun e' he => Option.noConfusion he, fun _ => ?_⟩
      cases hne : (listDevices d).isEmpty <;>
        simp [handleToolCall, hne, mcpOk, isUnknownTool]
  | readSensorsReq fetch =>
    cases fetch with
    | error e =>
      exact ⟨fun e' he => by obtain rfl := Option.some.inj he; rfl,
        fun hn => Option.noConfusion hn⟩
    | ok d =>
      refine ⟨fun e' he => Option.noConfusion he, fun _ => ?_⟩
      cases hne : (readSensors d).isEmpty <;>
        simp [handleToolCall, hne, mcpOk, isUnknownTool]
  | getStatusReq fetch =>
    cases fetch with
    | error e =>
      exact ⟨fun e' he => by obtain rfl := Option.some.inj he; rfl,
        fun hn => Option.noConfusion hn⟩
    | ok d =>
      exact ⟨fun e' he => Option.noConfusion he,
        fun _ => by simp [handleToolCall, mcpOk, isUnknownTool]⟩
  | relayOnReq id post =>
    cases post with
    | error e =>
      exact ⟨fun e' he => by obtain rfl := Option.some.inj he; rfl,
        fun hn => Option.noConfusion hn⟩
    | ok u =>
      exact ⟨fun e' he => Option.noConfusion he,
        fun _ => by simp [handleToolCall, cmdCase, mcpOk, isUnknownTool]⟩
  | relayOffReq id post =>
    cases post with
    | error e =>
      exact ⟨fun e' he => by obtain rfl := Option.some.inj he; rfl,
        fun hn => Option.noConfusion hn⟩
    | ok u =>
      exact ⟨fun e' he => Option.noConfusion he,
        fun _ => by simp [handleToolCall, cmdCase, mcpOk, isUnknownTool]⟩
  | relayToggleReq id post =>
    cases post with
    | error e =>
      exact ⟨fun e' he => by obtain rfl := Option.some.inj he; rfl,
        fun hn => Option.noConfusion hn⟩
    | ok u =>
      exact ⟨fun e' he => Option.noConfusion he,
        fun _ => by simp [handleToolCall, cmdCase, mcpOk, isUnknownTool]⟩
  | pcaOnReq id post =>
    cases post with
    | error e =>
      exact ⟨fun e' he => by obtain rfl := Option.some.inj he; rfl,
        fun hn => Option.noConfusion hn⟩
    | ok u =>
      exact ⟨fun e' he => Option.noConfusion he,
        fun _ => by simp [handleToolCall, cmdCase, mcpOk, isUnknownTool]⟩
  | pcaOffReq id post =>
    cases post with
    | error e =>
      exact ⟨fun e' he => by obtain rfl := Option.some.inj he; rfl,
        fun hn => Option.noConfusion hn⟩
    | ok u =>
      exact ⟨fun e' he => Option.noConfusion he,
        fun _ => by simp [handleToolCall, cmdCase, mcpOk, isUnknownTool]⟩
  | pcaToggleReq id post =>
    cases post with
    | error e =>
      exact ⟨fun e' he => by obtain rfl := Option.some.inj he; rfl,
        fun hn => Option.noConfusion hn⟩
    | ok u =>
      exact ⟨fun e' he => Option.noConfusion he,
        fun _ => by simp [handleToolCall, cmdCase, mcpOk, isUnknownTool]⟩
  | pcaSetReq id percent post =>
    cases post with
    | error e =>
      exact ⟨fun e' he => by obtain rfl := Option.some.inj he; rfl,
        fun hn => Option.noConfusion hn⟩
    | ok u =>
      exact ⟨fun e' he => Option.noConfusion he,
        fun _ => by simp [handleToolCall, cmdCase, mcpOk, isUnknownTool]⟩
  | pwmOnReq id post =>
    cases post with
    | error e =>
      exact ⟨fun e' he => by obtain rfl := Option.some.inj he; rfl,
        fun hn => Option.noConfusion hn⟩
    | ok u =>
      exact ⟨fun e' he => Option.noConfusion he,
        fun _ => by simp [handleToolCall, cmdCase, mcpOk, isUnknownTool]⟩
  | pwmOffReq id post =>
    cases post with
    | error e =>
      exact ⟨fun e' he => by obtain rfl := Option.some.inj he; rfl,
        fun hn => Option.noConfusion hn⟩
    | ok u =>
      exact ⟨fun e' he => Option.noConfusion he,
        fun _ => by simp [handleToolCall, cmdCase, mcpOk, isUnknownTool]⟩
  | pwmToggleReq id post =>
    cases post with
    | error e =>
      exact ⟨fun e' he => by obtain rfl := Option.some.inj he; rfl,
        fun hn => Option.noConfusion hn⟩
    | ok u =>
      exact ⟨fun e' he => Option.noConfusion he,
        fun _ => by simp [handleToolCall, cmdCase, mcpOk, isUnknownTool]⟩
  | pwmSetReq id percent post =>
    cases post with
    | error e =>
      exact ⟨fun e' he => by obtain rfl := Option.some.inj he; rfl,
        fun hn => Option.noConfusion hn⟩
    | ok u =>
      exact ⟨fun e' he => Option.noConfusion he,
        fun _ => by simp [handleToolCall, cmdCase, mcpOk, isUnknownTool]⟩
  | groupOnReq id post =>
    cases post with
    | error e =>
      exact ⟨fun e' he => by obtain rfl := Option.some.inj he; rfl,
        fun hn => Option.noConfusion hn⟩
    | ok u =>
      exact ⟨fun e' he => Option.noConfusion he,
        fun _ => by simp [handleToolCall, cmdCase, mcpOk, isUnknownTool]⟩
  | groupOffReq id post =>
    cases post with
    | error e =>
      exact ⟨fun e' he => by obtain rfl := Option.some.inj he; rfl,
        fun hn => Option.noConfusion hn⟩
    | ok u =>
      exact ⟨fun e' he => Option.noConfusion he,
        fun _ => by simp [handleToolCall, cmdCase, mcpOk, isUnknownTool]⟩
  | groupToggleReq id post =>
    cases post with
    | error e =>
      exact ⟨fun e' he => by obtain rfl := Option.some.inj he; rfl,
        fun hn => Option.noConfusion hn⟩
    | ok u =>
      exact ⟨fun e' he => Option.noConfusion he,
        fun _ => by simp [handleToolCall, cmdCase, mcpOk, isUnknownTool]⟩
  | sendCommandReq raw post =>
    cases hpr : parseRawCommands raw with
    | none =>
      refine ⟨fun e' he => ?_, fun hn => ?_⟩
      · simp only [thrownError, requestOutcome, hpr] at he
        obtain rfl := Option.some.inj he
        simp [handleToolCall, hpr]
      · simp [thrownError, requestOutcome, hpr] at hn
    | some pm =>
      cases post with
      | error e =>
        refine ⟨fun e' he => ?_, fun hn => ?_⟩
        · simp only [thrownError, requestOutcome, hpr] at he
          obtain rfl := Option.some.inj he
          simp [handleToolCall, hpr, cmdCase]
        · simp [thrownError, requestOutcome, hpr] at hn
      | ok u =>
        refine ⟨fun e' he => ?_, fun _ => ?_⟩
        · simp [thrownError, requestOutcome, hpr] at he
        · simp [handleToolCall, hpr, cmdCase, mcpOk, isUnknownTool]
  | unknownReq name =>
    exact ⟨fun e' he => Option.noConfusion he,
      fun _ => by simp [handleToolCall, mcpErr, isUnknownTool]⟩

/-- Witness for C8: a transport error thrown inside a relay command
surfaces as the tagged failure carrying its message; a successful sensor
read is not flagged as an error. -/
theorem tool_errors_surfaced_witness :
    handleToolCall (.relayOnReq 3 (.error "connect ECONNREFUSED")) =
      mcpErr "connect ECONNREFUSED" ∧
    ((handleToolCall (.readSensorsReq (.ok {}))).isError = true ↔
      isUnknownTool (.readSensorsReq (.ok {})) = true) :=
  ⟨(tool_errors_surfaced (.relayOnReq 3 (.error "connect ECONNREFUSED"))).1
      "connect ECONNREFUSED" rfl,
    (tool_errors_surfaced (.readSensorsReq (.ok {}))).2 rfl⟩

end MyIO
